import Mathlib

/-!
Verification of the teaching-prompt evaluation engine
(`src/prompt/teaching_evaluator.py`).

The Python module is shallowly embedded below.  Numeric scores are modelled
by exact rationals (`ℚ`); Python floats are treated as exact rational
arithmetic.  The two external LLM calls (responder and grader) are modelled
by an environment `Nat → SampleEnv` giving, for each test case, the sequence
of responder attempt outcomes and the grader's behaviour.  Fallible Python
code (a raised `ZeroDivisionError`) is modelled with `Except` / `Option`.
-/

namespace TeachingEval

/-- The character `U+007B` (left curly brace). -/
def lbrace : Char := Char.ofNat 123

/-- The character `U+007D` (right curly brace). -/
def rbrace : Char := Char.ofNat 125

/-- The four canonical error kinds of the evaluator
(`self.error_types` keys, lines 29–46).  `syntx` models the Python string
`'syntax'` (renamed because `syntax` is a Lean keyword). -/
inductive ErrorType
  | syntx
  | runtime
  | logical
  | conceptual
deriving DecidableEq, Repr

/-- The three difficulty tiers (`self.difficulty_levels` keys, lines 49–53). -/
inductive Difficulty
  | beginner
  | intermediate
  | advanced
deriving DecidableEq, Repr

/-- One row of the test dataframe: the columns read in the evaluation loop
(lines 92–95 of the source). -/
structure TestCase where
  code : String
  error_type : ErrorType
  difficulty : Difficulty
  expected_output : String
deriving DecidableEq, Repr

/-! ### The grader-output parser (`_evaluate_single_response` helpers) -/

/-- A JSON value, restricted to the fragment the grading prompt asks for
(flat objects of numbers and strings).  `json.loads` output outside this
fragment is modelled as a decode failure, which—as in the source—falls back
to `_extract_metrics_manually`. -/
inductive JsonVal
  | num (q : ℚ)
  | str (s : String)
deriving DecidableEq, Repr

/-- Drop leading whitespace from a character list. -/
def skipWs : List Char → List Char
  | [] => []
  | c :: cs => if c.isWhitespace then skipWs cs else c :: cs

/-- Numeric value of a list of decimal digit characters. -/
def digitsToNat (ds : List Char) : Nat :=
  ds.foldl (fun n c => n * 10 + (c.toNat - 48)) 0

/-- Parse a JSON number (optional minus sign, integer part, optional
fractional part; exponents are outside the modelled fragment). -/
def parseJNumber (cs : List Char) : Option (ℚ × List Char) :=
  let p := match cs with
    | c :: rest => if c = '-' then (true, rest) else (false, cs)
    | [] => (false, cs)
  let neg := p.1
  let cs1 := p.2
  let ds := cs1.takeWhile Char.isDigit
  let rest1 := cs1.dropWhile Char.isDigit
  if ds.isEmpty then none
  else
    let ipart : ℚ := (digitsToNat ds : ℚ)
    match rest1 with
    | c :: rest2 =>
      if c = '.' then
        let fs := rest2.takeWhile Char.isDigit
        let rest3 := rest2.dropWhile Char.isDigit
        if fs.isEmpty then none
        else
          let v := ipart + (digitsToNat fs : ℚ) / ((10 : ℚ) ^ fs.length)
          some (if neg then -v else v, rest3)
      else some (if neg then -ipart else ipart, rest1)
    | [] => some (if neg then -ipart else ipart, rest1)

/-- Parse a JSON string literal (no escape sequences: a backslash is outside
the modelled fragment and counts as a decode failure). -/
def parseJString : List Char → Option (String × List Char)
  | [] => none
  | c :: cs =>
    if c = '"' then
      let content := cs.takeWhile (fun d => d ≠ '"' && d ≠ '\\')
      let rest := cs.dropWhile (fun d => d ≠ '"' && d ≠ '\\')
      match rest with
      | d :: rest2 => if d = '"' then some (String.mk content, rest2) else none
      | [] => none
    else none

/-- Parse a JSON value of the modelled fragment (string or number). -/
def parseJValue (cs : List Char) : Option (JsonVal × List Char) :=
  match parseJString cs with
  | some (s, rest) => some (.str s, rest)
  | none =>
    match parseJNumber cs with
    | some (q, rest) => some (.num q, rest)
    | none => none

/-- Insert a key/value pair into an association list, replacing an existing
binding (as a Python `dict` built by `json.loads` keeps the last value). -/
def insertKV (m : List (String × JsonVal)) (k : String) (v : JsonVal) :
    List (String × JsonVal) :=
  match m with
  | [] => [(k, v)]
  | (k', v') :: rest => if k' = k then (k, v) :: rest else (k', v') :: insertKV rest k v

/-- Parse the members of a JSON object, fuelled to ensure termination. -/
def parseMembers : Nat → List (String × JsonVal) → List Char →
    Option (List (String × JsonVal) × List Char)
  | 0, _, _ => none
  | fuel + 1, acc, cs =>
    match parseJString (skipWs cs) with
    | none => none
    | some (k, rest1) =>
      match skipWs rest1 with
      | [] => none
      | c :: rest2 =>
        if c = ':' then
          match parseJValue (skipWs rest2) with
          | none => none
          | some (v, rest3) =>
            match skipWs rest3 with
            | [] => none
            | c2 :: rest4 =>
              if c2 = ',' then parseMembers fuel (insertKV acc k v) rest4
              else if c2 = rbrace then some (insertKV acc k v, rest4)
              else none
        else none

/-- Model of `json.loads` applied to a brace-delimited span, for the JSON
fragment the grading prompt requests: a flat object whose values are decimal
numbers or plain strings.  Anything outside the fragment yields `none`,
which the caller treats—exactly as the source treats a
`json.JSONDecodeError`—by falling back to manual extraction. -/
def jsonLoads (s : String) : Option (List (String × JsonVal)) :=
  match skipWs s.toList with
  | [] => none
  | c :: rest =>
    if c = lbrace then
      match skipWs rest with
      | [] => none
      | d :: rest2 =>
        if d = rbrace then
          if (skipWs rest2).isEmpty then some [] else none
        else
          match parseMembers (s.length + 1) [] (d :: rest2) with
          | some (m, rest3) => if (skipWs rest3).isEmpty then some m else none
          | none => none
    else none

/-- `re.search` of the pattern `\x7b[^\x7d]+\x7d` (line 295): the body of a
candidate match starting right after a left brace—at least one non-brace
character up to the first right brace, which must exist. -/
def braceBody (cs : List Char) : Option (List Char) :=
  let mid := cs.takeWhile (fun c => c ≠ rbrace)
  if mid.isEmpty then none
  else if mid.length < cs.length then some mid else none

/-- Left-to-right scan for the first match of `\x7b[^\x7d]+\x7d`. -/
def firstBraceSpanAux : List Char → Option String
  | [] => none
  | c :: rest =>
    if c = lbrace then
      match braceBody rest with
      | some mid => some (String.mk (lbrace :: (mid ++ [rbrace])))
      | none => firstBraceSpanAux rest
    else firstBraceSpanAux rest

/-- The first brace-delimited span of the grader's reply (line 295). -/
def firstBraceSpan (s : String) : Option String :=
  firstBraceSpanAux s.toList

/-- The character class `["\s:]` of the manual-extraction regex. -/
def classChar (c : Char) : Bool :=
  c = '"' || c = ':' || c.isWhitespace

/-- The capture group `\d+\.?\d*`: a greedy digit run, an optional dot and a
greedy (possibly empty) digit run, read as a Python float. -/
def numGroup (cs : List Char) : Option ℚ :=
  let d1 := cs.takeWhile Char.isDigit
  if d1.isEmpty then none
  else
    match cs.dropWhile Char.isDigit with
    | c :: rest2 =>
      if c = '.' then
        let d2 := rest2.takeWhile Char.isDigit
        some ((digitsToNat d1 : ℚ) + (digitsToNat d2 : ℚ) / (10 : ℚ) ^ d2.length)
      else some (digitsToNat d1 : ℚ)
    | [] => some (digitsToNat d1 : ℚ)

/-- Case-insensitive literal match: if the text starts with the (lowercase)
pattern, return the remainder. -/
def ciStartsWith : List Char → List Char → Option (List Char)
  | [], cs => some cs
  | _ :: _, [] => none
  | p :: ps, c :: cs => if c.toLower = p then ciStartsWith ps cs else none

/-- `re.search(name + '["\s:]+(\d+\.?\d*)', text, re.IGNORECASE)` (lines
334–336): scan left to right; at each position require the name, then a
nonempty run of class characters, then the number group.  Since digits are
not class characters the greedy class run is maximal, so no backtracking is
needed. -/
def searchMetric (pat : List Char) : List Char → Option ℚ
  | [] => none
  | c :: cs =>
    match ciStartsWith pat (c :: cs) with
    | some rest =>
      let run := rest.takeWhile classChar
      if run.isEmpty then searchMetric pat cs
      else
        match numGroup (rest.dropWhile classChar) with
        | some q => some q
        | none => searchMetric pat cs
    | none => searchMetric pat cs

/-- `_extract_metrics_manually` (lines 332–342): pattern-extract the three
sub-scores, defaulting each missing one to `0.5`. -/
def extract_metrics_manually (text : String) : List (String × JsonVal) :=
  let cs := text.toList
  let a := (searchMetric "accuracy".toList cs).getD (1/2)
  let g := (searchMetric "guidance".toList cs).getD (1/2)
  let c := (searchMetric "clarity".toList cs).getD (1/2)
  [("accuracy", .num a), ("guidance", .num g), ("clarity", .num c)]

/-! ### Format check and the Judge -/

/-- Python's `needle in haystack` substring test. -/
def containsSub (hay pat : String) : Bool :=
  decide (pat.toList <:+: hay.toList)

/-- `_check_format` (lines 344–352): the reply must contain a code-like
marker and an explanation-like marker. -/
def check_format (response : String) : Bool :=
  let has_code := containsSub response "```" || containsSub response "def " ||
    containsSub response "return"
  let has_explanation := containsSub response "错误" || containsSub response "Error" ||
    containsSub response "问题" || containsSub response "修正"
  has_code && has_explanation

/-- Behaviour of the grading model on one call: the `invoke` either raises an
exception or returns a string (an empty string is the falsy case of line
286). -/
inductive GraderBehavior
  | raise (msg : String)
  | ret (s : String)
deriving DecidableEq, Repr

/-- First `dict.get` (first binding wins; `insertKV` keeps bindings unique). -/
def dictGet (m : List (String × JsonVal)) (k : String) : Option JsonVal :=
  match m with
  | [] => none
  | (k', v) :: rest => if k' = k then some v else dictGet rest k

/-- The outcome of `_evaluate_single_response` for one sample. -/
structure JudgeResult where
  score : ℚ
  format_correct : Bool
  educational_value : ℚ
  failure_reason : String
deriving DecidableEq, Repr

/-- The grader-dependent part of `_evaluate_single_response` (lines
281–330): invoke the grader, parse its reply (strict decode of the first
brace span, else manual extraction), and compute
`accuracy*0.5 + guidance*0.3 + clarity*0.2` with each missing sub-score
defaulting to `0.5`.  A non-numeric sub-score raises a `TypeError` in the
score expression, which the source catches and turns into the neutral
`(0.5, 0.5)` outcome; the exception text is the failure reason (modelled by
a fixed non-empty string).  Returns `(score, educational_value,
failure_reason)`; the format flag is handled separately since it does not
depend on the grader. -/
def grade_metrics (grader : GraderBehavior) : ℚ × ℚ × String :=
  match grader with
  | .raise msg => (1/2, 1/2, msg)
  | .ret eval_result =>
    if eval_result = "" then (1/2, 1/2, "LLM返回空")
    else
      let metrics :=
        match firstBraceSpan eval_result with
        | some j =>
          match jsonLoads j with
          | some m => m
          | none => extract_metrics_manually eval_result
        | none => extract_metrics_manually eval_result
      match (dictGet metrics "accuracy").getD (.num (1/2)),
            (dictGet metrics "guidance").getD (.num (1/2)),
            (dictGet metrics "clarity").getD (.num (1/2)) with
      | .num a, .num g, .num c =>
        (a * (1/2) + g * (3/10) + c * (1/5), g,
          match dictGet metrics "failure_reason" with
          | some (.str r) => r
          | some (.num _) => ""
          | none => "")
      | _, _, _ => (1/2, 1/2, "TypeError: unsupported operand type(s)")

/-- `_evaluate_single_response` (lines 243–330): the format flag is computed
from the responder's own text (line 249); score, educational value and
failure reason come from the grading call. -/
def evaluate_single_response (response : String) (grader : GraderBehavior) :
    JudgeResult :=
  let m := grade_metrics grader
  ⟨m.1, check_format response, m.2.1, m.2.2⟩

/-! ### The responder with retries -/

/-- One responder attempt: `none` models a raised transport exception,
`some s` a returned string. -/
abbrev Attempt := Option String

/-- `len(response.strip()) > 0`: the string has a non-whitespace
character. -/
def nonBlank (s : String) : Bool :=
  s.toList.any (fun c => !c.isWhitespace)

/-- The retry loop of lines 115–133 stops at the first attempt returning a
string with non-blank content; later attempts are not made. -/
def firstGoodAttempt : List Attempt → Option String
  | [] => none
  | none :: rest => firstGoodAttempt rest
  | some s :: rest => if nonBlank s then some s else firstGoodAttempt rest

/-- `max_retries = 3` (line 116). -/
def max_retries : Nat := 3

/-- The final response of the retry loop: the test of line 135 skips the
sample exactly when no attempt produced non-blank text. -/
def responder_result (attempts : List Attempt) : Option String :=
  firstGoodAttempt (attempts.take max_retries)

/-- The external behaviour relevant to one test case: the responder's
attempt sequence and the grader's behaviour. -/
structure SampleEnv where
  attempts : List Attempt
  grader : GraderBehavior

/-- The per-sample outcome inside the evaluation loop: either the responder
retries were exhausted (line 135: the sample is skipped after a `0` is
appended to the performance vector), or the reply was graded. -/
inductive SampleOutcome
  | noResponse
  | judged (response : String) (result : JudgeResult)
deriving DecidableEq, Repr

/-- Outcome of one loop iteration's external calls. -/
def sampleOutcome (e : SampleEnv) : SampleOutcome :=
  match responder_result e.attempts with
  | none => .noResponse
  | some resp => .judged resp (evaluate_single_response resp e.grader)

/-- The evaluation loop's interaction trace: test case `i` is served by
`env i`.  (Samples are evaluated strictly sequentially, in corpus order.) -/
def runResults (env : Nat → SampleEnv) : Nat → List TestCase →
    List (TestCase × SampleOutcome)
  | _, [] => []
  | i, tc :: rest => (tc, sampleOutcome (env i)) :: runResults env (i + 1) rest

/-! ### The accumulating loop state of `evaluate` -/

/-- The `stats` dictionary (lines 72–83).  The `*_correct` counters count
samples with composite score `≥ 0.7`; `total` is set once to
`len(test_data)`. -/
structure Stats where
  syntx_correct : Nat
  runtime_correct : Nat
  logical_correct : Nat
  conceptual_correct : Nat
  beginner_correct : Nat
  intermediate_correct : Nat
  advanced_correct : Nat
  format_correct : Nat
  educational_value_sum : ℚ
  total : Nat
deriving DecidableEq, Repr

/-- An entry of `error_samples` (lines 163–171).  `reason` is
`metrics.get('failure_reason', '可以进一步优化')`; since every return path of
`_evaluate_single_response` includes the `failure_reason` key, the default
never applies and the stored reason is exactly the judge's failure reason
(possibly empty). -/
structure ErrorSample where
  input : String
  output : String
  expected : String
  error_type : ErrorType
  difficulty : Difficulty
  score : ℚ
  reason : String
deriving DecidableEq, Repr

/-- Build the low-score record of lines 163–171. -/
def mkErrorSample (tc : TestCase) (resp : String) (jr : JudgeResult) : ErrorSample :=
  ⟨tc.code, resp, tc.expected_output, tc.error_type, tc.difficulty, jr.score,
    jr.failure_reason⟩

/-- The mutable locals of the evaluation loop (lines 67–87). -/
structure LoopState where
  total_score : ℚ
  perf_vector : List Nat
  error_samples : List ErrorSample
  stats : Stats
deriving DecidableEq, Repr

/-- `stats[f'{error_type}_correct'] += 1` (line 150). -/
def bumpKind (s : Stats) : ErrorType → Stats
  | .syntx => { s with syntx_correct := s.syntx_correct + 1 }
  | .runtime => { s with runtime_correct := s.runtime_correct + 1 }
  | .logical => { s with logical_correct := s.logical_correct + 1 }
  | .conceptual => { s with conceptual_correct := s.conceptual_correct + 1 }

/-- `stats[f'{difficulty}_correct'] += 1` (line 151). -/
def bumpDifficulty (s : Stats) : Difficulty → Stats
  | .beginner => { s with beginner_correct := s.beginner_correct + 1 }
  | .intermediate => { s with intermediate_correct := s.intermediate_correct + 1 }
  | .advanced => { s with advanced_correct := s.advanced_correct + 1 }

/-- One iteration of the evaluation loop (lines 113–171) on an already
resolved outcome.  On `noResponse` only `perf_vector.append(0)` happens
(line 137) and the loop continues; on a judged outcome the score, stats and
(below threshold `0.85`) the error-sample record are accumulated. -/
def stepSample (tc : TestCase) (o : SampleOutcome) (st : LoopState) : LoopState :=
  match o with
  | .noResponse => { st with perf_vector := st.perf_vector ++ [0] }
  | .judged resp jr =>
    let s1 := if (7 : ℚ)/10 ≤ jr.score
      then bumpDifficulty (bumpKind st.stats tc.error_type) tc.difficulty
      else st.stats
    let s2 := if jr.format_correct
      then { s1 with format_correct := s1.format_correct + 1 }
      else s1
    let s3 := { s2 with
      educational_value_sum := s2.educational_value_sum + jr.educational_value }
    { total_score := st.total_score + jr.score
      perf_vector := st.perf_vector ++ [if (7 : ℚ)/10 ≤ jr.score then 1 else 0]
      error_samples :=
        if jr.score < (17 : ℚ)/20
        then st.error_samples ++ [mkErrorSample tc resp jr]
        else st.error_samples
      stats := s3 }

/-- Run the evaluation loop over the interaction trace. -/
def foldSamples (st : LoopState) : List (TestCase × SampleOutcome) → LoopState
  | [] => st
  | (tc, o) :: rest => foldSamples (stepSample tc o st) rest

/-- The initial loop state (lines 67–83); `total` is `len(test_data)`. -/
def initState (n : Nat) : LoopState :=
  ⟨0, [], [], ⟨0, 0, 0, 0, 0, 0, 0, 0, 0, n⟩⟩

/-! ### Aggregation -/

/-- `type_counts[error_type] += 1` is executed once per row (line 98), so
each counter equals the number of corpus rows of that kind. -/
def kindCount (corpus : List TestCase) (k : ErrorType) : Nat :=
  corpus.countP (fun c => decide (c.error_type = k))

/-- `difficulty_counts[difficulty] += 1` (line 99), likewise per row. -/
def diffCount (corpus : List TestCase) (d : Difficulty) : Nat :=
  corpus.countP (fun c => decide (c.difficulty = d))

/-- Read the per-kind pass counter out of `stats`. -/
def kindCorrectStat (s : Stats) : ErrorType → Nat
  | .syntx => s.syntx_correct
  | .runtime => s.runtime_correct
  | .logical => s.logical_correct
  | .conceptual => s.conceptual_correct

/-- Read the per-difficulty pass counter out of `stats`. -/
def diffCorrectStat (s : Stats) : Difficulty → Nat
  | .beginner => s.beginner_correct
  | .intermediate => s.intermediate_correct
  | .advanced => s.advanced_correct

/-- `self.error_types` weights in dict insertion order (lines 29–46). -/
def error_type_weights : List (ErrorType × ℚ) :=
  [(.syntx, 1/4), (.runtime, 7/20), (.logical, 1/4), (.conceptual, 3/20)]

/-- `evidence['metrics']` (lines 224–233). -/
structure Metrics where
  overall_score : ℚ
  error_detection : ℚ
  educational_value : ℚ
  format_compliance : ℚ
  difficulty_adaptation : ℚ
  error_samples : List ErrorSample
  stats : Stats
deriving DecidableEq, Repr

/-- The `evidence` record returned by `evaluate` (lines 224–237). -/
structure Evidence where
  metrics : Metrics
  perf_vector : List Nat
  fp_samples : List ErrorSample
  error_samples : List ErrorSample
deriving DecidableEq, Repr

/-- `TeachingPromptEvaluator.evaluate` (lines 55–241).  The system prompt
only flows into the responder calls, whose replies the environment already
fixes, so it is otherwise unused.  On an empty corpus
`stats['educational_value_sum'] / n` (line 196) divides by `n = 0`, which in
Python raises `ZeroDivisionError`; this is the `Except.error` case.  The
outer per-sample `except` (lines 173–183) is unreachable in this model:
with well-typed rows every exception of the loop body is caught by the
inner handlers. -/
def evaluate (system_prompt : String) (corpus : List TestCase)
    (env : Nat → SampleEnv) : Except String (ℚ × Evidence) :=
  let _ := system_prompt
  if corpus = [] then .error "ZeroDivisionError: division by zero"
  else
    let run := runResults env 0 corpus
    let st := foldSamples (initState corpus.length) run
    let n : ℚ := (corpus.length : ℚ)
    let error_detection_score := error_type_weights.foldl (fun acc kw =>
      if 0 < kindCount corpus kw.1 then
        acc + ((kindCorrectStat st.stats kw.1 : ℚ) / (kindCount corpus kw.1 : ℚ)) * kw.2
      else acc) 0
    let educational_score := st.stats.educational_value_sum / n
    let format_score := (st.stats.format_correct : ℚ) / n
    let difficulty_score :=
      [Difficulty.beginner, Difficulty.intermediate, Difficulty.advanced].foldl
        (fun acc d =>
          if 0 < diffCount corpus d then
            acc + ((diffCorrectStat st.stats d : ℚ) / (diffCount corpus d : ℚ)) / 3
          else acc) 0
    let final_score := error_detection_score * (2/5) + educational_score * (3/10) +
      format_score * (1/5) + difficulty_score * (1/10)
    .ok (final_score,
      { metrics :=
          { overall_score := final_score
            error_detection := error_detection_score
            educational_value := educational_score
            format_compliance := format_score
            difficulty_adaptation := difficulty_score
            error_samples := st.error_samples.take 20
            stats := st.stats }
        perf_vector := st.perf_vector
        fp_samples := st.error_samples
        error_samples := st.error_samples })

/-! ### The stratified sampler (`sample_balanced_cases`, lines 594–632) -/

/-- Position of an error kind in Python's sort order of the label strings
(`'conceptual' < 'logical' < 'runtime' < 'syntax'`). -/
def kindIdx : ErrorType → Nat
  | .conceptual => 0
  | .logical => 1
  | .runtime => 2
  | .syntx => 3

/-- Position of a difficulty in Python's sort order of the label strings
(`'advanced' < 'beginner' < 'intermediate'`). -/
def diffIdx : Difficulty → Nat
  | .advanced => 0
  | .beginner => 1
  | .intermediate => 2

/-- The stratum key of a case: `(case['error_type'], case['difficulty'])`
(line 612). -/
def keyOf (c : TestCase) : ErrorType × Difficulty :=
  (c.error_type, c.difficulty)

/-- The strict lexicographic order on stratum keys that Python's
`sorted(groups.items())` uses (string comparison on both components). -/
def keyLt (a b : ErrorType × Difficulty) : Prop :=
  kindIdx a.1 < kindIdx b.1 ∨ (kindIdx a.1 = kindIdx b.1 ∧ diffIdx a.2 < diffIdx b.2)

instance : DecidableRel keyLt := fun a b => by
  unfold keyLt
  infer_instance

/-- All twelve possible stratum keys, listed in the Python sort order. -/
def allKeys : List (ErrorType × Difficulty) :=
  [(.conceptual, .advanced), (.conceptual, .beginner), (.conceptual, .intermediate),
   (.logical, .advanced), (.logical, .beginner), (.logical, .intermediate),
   (.runtime, .advanced), (.runtime, .beginner), (.runtime, .intermediate),
   (.syntx, .advanced), (.syntx, .beginner), (.syntx, .intermediate)]

/-- The keys of `sorted(groups.items())` (line 621).  Since keys range over
a fixed twelve-element set, sorting the set of present keys is the same as
filtering the sorted list of all keys down to the present ones. -/
def strataKeys (cases : List TestCase) : List (ErrorType × Difficulty) :=
  allKeys.filter (fun k => cases.any (fun c => decide (keyOf c = k)))

/-- One step of a linear congruential generator, standing in for the
Mersenne-Twister state step of Python's `random` module.  All claims proved
here depend only on `random.sample`'s contract (a deterministic function of
the seeded generator state that picks `k` distinct positions of the
population), never on which elements are picked. -/
def lcgNext (st : Nat) : Nat :=
  (st * 1103515245 + 12345) % 2147483648

/-- Model of `random.sample(pop, k)` under generator state `st`: pick `k`
distinct positions one at a time, returning the chosen elements and the new
generator state.  The `pop = []` fallback is outside `random.sample`'s
contract (`k ≤ len(pop)` at every call site) and unreachable there. -/
def pySample : Nat → Nat → List TestCase → List TestCase × Nat
  | st, 0, _ => ([], st)
  | st, k + 1, pop =>
    if h : pop = [] then ([], st)
    else
      let st' := lcgNext st
      let i := st' % pop.length
      let x := pop.get ⟨i, Nat.mod_lt _ (List.length_pos.mpr h)⟩
      let r := pySample st' k (pop.eraseIdx i)
      (x :: r.1, r.2)

/-- The per-stratum sampling loop (lines 621–623): for each key in sorted
order, draw `min(samples_per_group, len(group))` items from that stratum. -/
def drawGroups (spg : Nat) (cases : List TestCase) :
    Nat → List (ErrorType × Difficulty) → List TestCase × Nat
  | st, [] => ([], st)
  | st, k :: ks =>
    let group := cases.filter (fun c => decide (keyOf c = k))
    let r1 := pySample st (min spg group.length) group
    let r2 := drawGroups spg cases r1.2 ks
    (r1.1 ++ r2.1, r2.2)

/-- `sample_balanced_cases(cases, max_samples, seed)` (lines 594–632).
`g0` is the ambient state of Python's global random generator at call time;
`random.seed(seed)` (line 607) resets that state, so `g0` is discarded.
On an empty corpus `groups` is empty and
`samples_per_group = max(1, max_samples // len(groups))` (line 619) raises
`ZeroDivisionError`: the `none` case.  The final top-up (lines 626–630)
draws `min(max_samples - len(sampled), len(remaining))` extra items from
the cases not already sampled, and the result is truncated to
`max_samples` (line 632). -/
def sample_balanced_cases (g0 : Nat) (cases : List TestCase)
    (max_samples : Nat) (seed : Nat) : Option (List TestCase) :=
  let _ := g0
  let st0 := seed
  if cases = [] then none
  else
    let keys := strataKeys cases
    let samples_per_group := max 1 (max_samples / keys.length)
    let r := drawGroups samples_per_group cases st0 keys
    let sampled := r.1
    let remaining := cases.filter (fun c => decide (c ∉ sampled))
    let additional := min (max_samples - sampled.length) remaining.length
    let extra := pySample r.2 additional remaining
    some ((sampled ++ extra.1).take max_samples)

/-! ### Declarative descriptions of the loop's accumulations

These definitions restate, directly as counts and filters over the
interaction trace, what the imperative loop of `evaluate` accumulates; the
lemmas below prove the two agree. -/

/-- The performance-vector entry of one sample (lines 137 and 146). -/
def perfOf : SampleOutcome → Nat
  | .noResponse => 0
  | .judged _ jr => if (7 : ℚ)/10 ≤ jr.score then 1 else 0

/-- A sample passes iff it was graded with composite score `≥ 0.7`. -/
def passes : SampleOutcome → Bool
  | .noResponse => false
  | .judged _ jr => decide ((7 : ℚ)/10 ≤ jr.score)

/-- Number of trace entries of kind `k` that passed. -/
def passCountKind (run : List (TestCase × SampleOutcome)) (k : ErrorType) : Nat :=
  run.countP (fun p => decide (p.1.error_type = k) && passes p.2)

/-- Number of trace entries of difficulty `d` that passed. -/
def passCountDiff (run : List (TestCase × SampleOutcome)) (d : Difficulty) : Nat :=
  run.countP (fun p => decide (p.1.difficulty = d) && passes p.2)

/-- The format flag of one sample (skipped samples contribute nothing). -/
def fmtOf : SampleOutcome → Bool
  | .noResponse => false
  | .judged _ jr => jr.format_correct

/-- The educational value contributed by one sample. -/
def eduOf : SampleOutcome → ℚ
  | .noResponse => 0
  | .judged _ jr => jr.educational_value

/-- Number of graded trace entries whose reply passed the format check. -/
def formatCount (run : List (TestCase × SampleOutcome)) : Nat :=
  run.countP (fun p => fmtOf p.2)

/-- Sum of the educational values of the graded trace entries. -/
def eduSum (run : List (TestCase × SampleOutcome)) : ℚ :=
  (run.map (fun p => eduOf p.2)).sum

/-- The low-score record of one sample: graded samples with composite score
`< 0.85` produce the line 163–171 record, all others produce nothing. -/
def lowRecOf (tc : TestCase) : SampleOutcome → Option ErrorSample
  | .noResponse => none
  | .judged resp jr =>
    if jr.score < (17 : ℚ)/20 then some (mkErrorSample tc resp jr) else none

/-- The specification's description of the low-score collection: exactly
the graded samples with composite score `< 0.85`, in evaluation order, each
with input, response, expected outcome, kind, difficulty, score and failure
reason. -/
def spec_low_score_samples (run : List (TestCase × SampleOutcome)) :
    List ErrorSample :=
  run.filterMap (fun p => lowRecOf p.1 p.2)

/-- The specification's error-detection formula: the sum, over the kinds
with at least one sample, of `weight × pass-fraction`, with weights
syntax 0.25, runtime 0.35, logical 0.25, conceptual 0.15 and no
renormalisation for absent kinds. -/
def spec_error_detection_score (corpus : List TestCase)
    (run : List (TestCase × SampleOutcome)) : ℚ :=
  (if 0 < kindCount corpus .syntx then
    (1/4) * ((passCountKind run .syntx : ℚ) / (kindCount corpus .syntx : ℚ)) else 0) +
  (if 0 < kindCount corpus .runtime then
    (7/20) * ((passCountKind run .runtime : ℚ) / (kindCount corpus .runtime : ℚ)) else 0) +
  (if 0 < kindCount corpus .logical then
    (1/4) * ((passCountKind run .logical : ℚ) / (kindCount corpus .logical : ℚ)) else 0) +
  (if 0 < kindCount corpus .conceptual then
    (3/20) * ((passCountKind run .conceptual : ℚ) / (kindCount corpus .conceptual : ℚ)) else 0)

/-- The specification's difficulty formula: the sum, over the tiers with at
least one sample, of `pass-fraction / 3`; the divisor 3 is applied
unconditionally, so absent tiers contribute 0 and nothing is
renormalised. -/
def spec_difficulty_score (corpus : List TestCase)
    (run : List (TestCase × SampleOutcome)) : ℚ :=
  (if 0 < diffCount corpus .beginner then
    ((passCountDiff run .beginner : ℚ) / (diffCount corpus .beginner : ℚ)) / 3 else 0) +
  (if 0 < diffCount corpus .intermediate then
    ((passCountDiff run .intermediate : ℚ) / (diffCount corpus .intermediate : ℚ)) / 3 else 0) +
  (if 0 < diffCount corpus .advanced then
    ((passCountDiff run .advanced : ℚ) / (diffCount corpus .advanced : ℚ)) / 3 else 0)

/-- The overall score obtained from the declarative dimension scores. -/
def spec_overall_score (corpus : List TestCase)
    (run : List (TestCase × SampleOutcome)) : ℚ :=
  spec_error_detection_score corpus run * (2/5) +
  (eduSum run / (corpus.length : ℚ)) * (3/10) +
  ((formatCount run : ℚ) / (corpus.length : ℚ)) * (1/5) +
  spec_difficulty_score corpus run * (1/10)

/-- The final `stats` dictionary, described declaratively. -/
def specStats (corpus : List TestCase)
    (run : List (TestCase × SampleOutcome)) : Stats :=
  ⟨passCountKind run .syntx, passCountKind run .runtime,
   passCountKind run .logical, passCountKind run .conceptual,
   passCountDiff run .beginner, passCountDiff run .intermediate,
   passCountDiff run .advanced, formatCount run, eduSum run, corpus.length⟩

/-- The full `evidence` record, described declaratively. -/
def specEvidence (corpus : List TestCase)
    (run : List (TestCase × SampleOutcome)) : Evidence :=
  { metrics :=
      { overall_score := spec_overall_score corpus run
        error_detection := spec_error_detection_score corpus run
        educational_value := eduSum run / (corpus.length : ℚ)
        format_compliance := (formatCount run : ℚ) / (corpus.length : ℚ)
        difficulty_adaptation := spec_difficulty_score corpus run
        error_samples := (spec_low_score_samples run).take 20
        stats := specStats corpus run }
    perf_vector := run.map (fun p => perfOf p.2)
    fp_samples := spec_low_score_samples run
    error_samples := spec_low_score_samples run }

/-- The grader's extracted sub-scores stay in `[0, 1]`: the composite score
and the educational value (the extracted guidance) are within bounds.
`grade_metrics` does not depend on the responder text, so this is a
property of the grader behaviour alone. -/
def grader_metrics_bounded (g : GraderBehavior) : Prop :=
  0 ≤ (grade_metrics g).1 ∧ (grade_metrics g).1 ≤ 1 ∧
  0 ≤ (grade_metrics g).2.1 ∧ (grade_metrics g).2.1 ≤ 1

instance (g : GraderBehavior) : Decidable (grader_metrics_bounded g) := by
  unfold grader_metrics_bounded
  infer_instance

/-! ### Concrete data used by witnesses and counterexamples -/

/-- A beginner test case of each kind. -/
def tc_syn : TestCase := ⟨"c1", .syntx, .beginner, "e1"⟩

/-- A beginner runtime test case. -/
def tc_run : TestCase := ⟨"c2", .runtime, .beginner, "e2"⟩

/-- A beginner logical test case. -/
def tc_log : TestCase := ⟨"c3", .logical, .beginner, "e3"⟩

/-- A beginner conceptual test case. -/
def tc_con : TestCase := ⟨"c4", .conceptual, .beginner, "e4"⟩

/-- A well-formed grader reply with all three sub-scores `0.9`. -/
def jreply09 : String :=
  "\x7b\"accuracy\": 0.9, \"guidance\": 0.9, \"clarity\": 0.9\x7d"

/-- A well-formed grader reply with all three sub-scores `0.3`. -/
def jreply03 : String :=
  "\x7b\"accuracy\": 0.3, \"guidance\": 0.3, \"clarity\": 0.3\x7d"

/-- A well-formed grader reply with all three sub-scores `0.95`. -/
def jreply095 : String :=
  "\x7b\"accuracy\": 0.95, \"guidance\": 0.95, \"clarity\": 0.95\x7d"

/-- A well-formed grader reply with all three sub-scores `0.6`. -/
def jreply06 : String :=
  "\x7b\"accuracy\": 0.6, \"guidance\": 0.6, \"clarity\": 0.6\x7d"

/-- An out-of-range grader reply: every sub-score is `5`. -/
def jreplyBig : String :=
  "\x7b\"accuracy\": 5, \"guidance\": 5, \"clarity\": 5\x7d"

/-- A grader reply with prose around a well-formed object carrying
`accuracy = 0.9`, `guidance = 0.8`, `clarity = 0.7`. -/
def jreplyRound : String :=
  "评分结果 \x7b\"accuracy\": 0.9, \"guidance\": 0.8, \"clarity\": 0.7, \"failure_reason\": \"\"\x7d 完毕"

/-- Environment in which every responder reply succeeds at once and every
grader reply carries sub-scores `0.9`. -/
def envHigh : Nat → SampleEnv := fun _ => ⟨[some "ok"], .ret jreply09⟩

/-- Environment with passing replies graded `0.3` (collected as
low-score samples). -/
def envLow : Nat → SampleEnv := fun _ => ⟨[some "ok"], .ret jreply03⟩

/-- Environment whose grader returns out-of-range sub-scores. -/
def envBig : Nat → SampleEnv := fun _ => ⟨[some "ok"], .ret jreplyBig⟩

/-- Environment in which every responder attempt raises. -/
def envFail : Nat → SampleEnv := fun _ => ⟨[], .ret jreply09⟩

/-- Environment for the four-kind scenario of the error-detection claim:
composite scores `0.9, 0.3, 0.95, 0.6` for cases `0, 1, 2, 3`. -/
def envC7 : Nat → SampleEnv := fun i =>
  ⟨[some "ok"], .ret (match i with
    | 0 => jreply09
    | 1 => jreply03
    | 2 => jreply095
    | _ => jreply06)⟩

/-- The four-kind scenario corpus, one case per kind. -/
def corpus4 : List TestCase := [tc_syn, tc_run, tc_log, tc_con]

/-- A corpus with two equal cases (equal rows do occur in the generated
dataset, since equal raw records map to equal dictionaries). -/
def corpusDup : List TestCase := [tc_syn, tc_syn, tc_run]

/-- The first brace span of `jreplyRound`. -/
def spanRound : String :=
  "\x7b\"accuracy\": 0.9, \"guidance\": 0.8, \"clarity\": 0.7, \"failure_reason\": \"\"\x7d"

/-- The metric dictionary parsed from `spanRound`. -/
def dictRound : List (String × JsonVal) :=
  [("accuracy", .num (9/10)), ("guidance", .num (4/5)), ("clarity", .num (7/10)),
   ("failure_reason", .str "")]

/-! ### Lemmas: the imperative loop computes the declarative description -/

lemma stepSample_perf (tc : TestCase) (o : SampleOutcome) (st : LoopState) :
    (stepSample tc o st).perf_vector = st.perf_vector ++ [perfOf o] := by
  cases o <;> simp [stepSample, perfOf]

lemma stepSample_err (tc : TestCase) (o : SampleOutcome) (st : LoopState) :
    (stepSample tc o st).error_samples =
      st.error_samples ++ (lowRecOf tc o).toList := by
  cases o with
  | noResponse => simp [stepSample, lowRecOf]
  | judged resp jr =>
    by_cases hlow : jr.score < (17 : ℚ)/20 <;> simp [stepSample, lowRecOf, hlow]

lemma stepSample_total_score (tc : TestCase) (o : SampleOutcome) (st : LoopState) :
    (stepSample tc o st).total_score = st.total_score +
      (match o with
        | .noResponse => 0
        | .judged _ jr => jr.score) := by
  cases o <;> simp [stepSample]

lemma stepSample_kind (tc : TestCase) (o : SampleOutcome) (st : LoopState)
    (k : ErrorType) :
    kindCorrectStat (stepSample tc o st).stats k =
      kindCorrectStat st.stats k +
        (if decide (tc.error_type = k) && passes o then 1 else 0) := by
  obtain ⟨code, et, di, exp⟩ := tc
  cases o with
  | noResponse => simp [stepSample, passes]
  | judged resp jr =>
    by_cases hp : (7 : ℚ)/10 ≤ jr.score <;> by_cases hf : jr.format_correct <;>
      cases et <;> cases di <;> cases k <;>
      simp [stepSample, passes, hp, hf, bumpKind, bumpDifficulty, kindCorrectStat]

lemma stepSample_diff (tc : TestCase) (o : SampleOutcome) (st : LoopState)
    (d : Difficulty) :
    diffCorrectStat (stepSample tc o st).stats d =
      diffCorrectStat st.stats d +
        (if decide (tc.difficulty = d) && passes o then 1 else 0) := by
  obtain ⟨code, et, di, exp⟩ := tc
  cases o with
  | noResponse => simp [stepSample, passes]
  | judged resp jr =>
    by_cases hp : (7 : ℚ)/10 ≤ jr.score <;> by_cases hf : jr.format_correct <;>
      cases et <;> cases di <;> cases d <;>
      simp [stepSample, passes, hp, hf, bumpKind, bumpDifficulty, diffCorrectStat]

lemma stepSample_format (tc : TestCase) (o : SampleOutcome) (st : LoopState) :
    (stepSample tc o st).stats.format_correct =
      st.stats.format_correct + (if fmtOf o then 1 else 0) := by
  obtain ⟨code, et, di, exp⟩ := tc
  cases o with
  | noResponse => simp [stepSample, fmtOf]
  | judged resp jr =>
    by_cases hp : (7 : ℚ)/10 ≤ jr.score <;> by_cases hf : jr.format_correct <;>
      cases et <;> cases di <;>
      simp [stepSample, fmtOf, hp, hf, bumpKind, bumpDifficulty]

lemma stepSample_edu (tc : TestCase) (o : SampleOutcome) (st : LoopState) :
    (stepSample tc o st).stats.educational_value_sum =
      st.stats.educational_value_sum + eduOf o := by
  obtain ⟨code, et, di, exp⟩ := tc
  cases o with
  | noResponse => simp [stepSample, eduOf]
  | judged resp jr =>
    by_cases hp : (7 : ℚ)/10 ≤ jr.score <;> by_cases hf : jr.format_correct <;>
      cases et <;> cases di <;>
      simp [stepSample, eduOf, hp, hf, bumpKind, bumpDifficulty]

lemma stepSample_stot (tc : TestCase) (o : SampleOutcome) (st : LoopState) :
    (stepSample tc o st).stats.total = st.stats.total := by
  obtain ⟨code, et, di, exp⟩ := tc
  cases o with
  | noResponse => simp [stepSample]
  | judged resp jr =>
    by_cases hp : (7 : ℚ)/10 ≤ jr.score <;> by_cases hf : jr.format_correct <;>
      cases et <;> cases di <;>
      simp [stepSample, hp, hf, bumpKind, bumpDifficulty]

lemma foldSamples_perf (run : List (TestCase × SampleOutcome)) (st : LoopState) :
    (foldSamples st run).perf_vector =
      st.perf_vector ++ run.map (fun p => perfOf p.2) := by
  induction run generalizing st with
  | nil => simp [foldSamples]
  | cons p rest ih =>
    obtain ⟨tc, o⟩ := p
    simp only [foldSamples, ih, stepSample_perf, List.map_cons]
    simp

lemma foldSamples_err (run : List (TestCase × SampleOutcome)) (st : LoopState) :
    (foldSamples st run).error_samples =
      st.error_samples ++ spec_low_score_samples run := by
  induction run generalizing st with
  | nil => simp [foldSamples, spec_low_score_samples]
  | cons p rest ih =>
    obtain ⟨tc, o⟩ := p
    simp only [foldSamples, ih, stepSample_err, spec_low_score_samples,
      List.filterMap_cons]
    cases h : lowRecOf tc o <;> simp [spec_low_score_samples]

lemma foldSamples_kind (run : List (TestCase × SampleOutcome)) (st : LoopState)
    (k : ErrorType) :
    kindCorrectStat (foldSamples st run).stats k =
      kindCorrectStat st.stats k + passCountKind run k := by
  induction run generalizing st with
  | nil => simp [foldSamples, passCountKind]
  | cons p rest ih =>
    obtain ⟨tc, o⟩ := p
    simp only [foldSamples, ih, stepSample_kind, passCountKind, List.countP_cons]
    split <;> omega

lemma foldSamples_diff (run : List (TestCase × SampleOutcome)) (st : LoopState)
    (d : Difficulty) :
    diffCorrectStat (foldSamples st run).stats d =
      diffCorrectStat st.stats d + passCountDiff run d := by
  induction run generalizing st with
  | nil => simp [foldSamples, passCountDiff]
  | cons p rest ih =>
    obtain ⟨tc, o⟩ := p
    simp only [foldSamples, ih, stepSample_diff, passCountDiff, List.countP_cons]
    split <;> omega

lemma foldSamples_format (run : List (TestCase × SampleOutcome)) (st : LoopState) :
    (foldSamples st run).stats.format_correct =
      st.stats.format_correct + formatCount run := by
  induction run generalizing st with
  | nil => simp [foldSamples, formatCount]
  | cons p rest ih =>
    obtain ⟨tc, o⟩ := p
    simp only [foldSamples, ih, stepSample_format, formatCount, List.countP_cons]
    split <;> omega

lemma foldSamples_edu (run : List (TestCase × SampleOutcome)) (st : LoopState) :
    (foldSamples st run).stats.educational_value_sum =
      st.stats.educational_value_sum + eduSum run := by
  induction run generalizing st with
  | nil => simp [foldSamples, eduSum]
  | cons p rest ih =>
    obtain ⟨tc, o⟩ := p
    simp only [foldSamples, ih, stepSample_edu, eduSum, List.map_cons, List.sum_cons]
    ring

lemma foldSamples_total (run : List (TestCase × SampleOutcome)) (st : LoopState) :
    (foldSamples st run).stats.total = st.stats.total := by
  induction run generalizing st with
  | nil => simp [foldSamples]
  | cons p rest ih =>
    obtain ⟨tc, o⟩ := p
    simp only [foldSamples, ih, stepSample_stot]

lemma runResults_map_fst (env : Nat → SampleEnv) (i : Nat) (l : List TestCase) :
    (runResults env i l).map Prod.fst = l := by
  induction l generalizing i with
  | nil => simp [runResults]
  | cons tc rest ih => simp [runResults, ih]

lemma runResults_length (env : Nat → SampleEnv) (i : Nat) (l : List TestCase) :
    (runResults env i l).length = l.length := by
  have h := congrArg List.length (runResults_map_fst env i l)
  simpa using h

lemma runResults_getElem? (env : Nat → SampleEnv) (l : List TestCase)
    (j i : Nat) :
    (runResults env j l)[i]? =
      l[i]?.map (fun tc => (tc, sampleOutcome (env (j + i)))) := by
  induction l generalizing j i with
  | nil => simp [runResults]
  | cons tc rest ih =>
    cases i with
    | zero => simp [runResults]
    | succ n =>
      simp only [runResults, List.getElem?_cons_succ, ih]
      have : j + 1 + n = j + (n + 1) := by omega
      rw [this]

lemma countP_runResults (env : Nat → SampleEnv) (i : Nat) (l : List TestCase)
    (p : TestCase → Bool) :
    (runResults env i l).countP (fun q => p q.1) = l.countP p := by
  have h := congrArg (List.countP p) (runResults_map_fst env i l)
  rw [List.countP_map] at h
  exact h

lemma passCountKind_le (env : Nat → SampleEnv) (i : Nat) (l : List TestCase)
    (k : ErrorType) :
    passCountKind (runResults env i l) k ≤ kindCount l k := by
  rw [kindCount, ← countP_runResults env i l]
  exact List.countP_mono_left (fun x _ hx => by
    simp only [Bool.and_eq_true] at hx
    exact hx.1)

lemma passCountDiff_le (env : Nat → SampleEnv) (i : Nat) (l : List TestCase)
    (d : Difficulty) :
    passCountDiff (runResults env i l) d ≤ diffCount l d := by
  rw [diffCount, ← countP_runResults env i l]
  exact List.countP_mono_left (fun x _ hx => by
    simp only [Bool.and_eq_true] at hx
    exact hx.1)


lemma ite_acc_add (c : Prop) [Decidable c] (acc t : ℚ) :
    (if c then acc + t else acc) = acc + (if c then t else 0) := by
  split <;> simp

lemma statsExt (a b : Stats)
    (h1 : a.syntx_correct = b.syntx_correct)
    (h2 : a.runtime_correct = b.runtime_correct)
    (h3 : a.logical_correct = b.logical_correct)
    (h4 : a.conceptual_correct = b.conceptual_correct)
    (h5 : a.beginner_correct = b.beginner_correct)
    (h6 : a.intermediate_correct = b.intermediate_correct)
    (h7 : a.advanced_correct = b.advanced_correct)
    (h8 : a.format_correct = b.format_correct)
    (h9 : a.educational_value_sum = b.educational_value_sum)
    (h10 : a.total = b.total) : a = b := by
  cases a; cases b; simp_all

/-- Closed form of `evaluate` on a nonempty corpus: the returned score and
evidence are exactly the declarative descriptions above. -/
lemma evaluate_closed_form (p : String) (corpus : List TestCase)
    (env : Nat → SampleEnv) (h : corpus ≠ []) :
    evaluate p corpus env =
      .ok (spec_overall_score corpus (runResults env 0 corpus),
        specEvidence corpus (runResults env 0 corpus)) := by
  have hkind : ∀ k, kindCorrectStat
      (foldSamples (initState corpus.length) (runResults env 0 corpus)).stats k =
      passCountKind (runResults env 0 corpus) k := by
    intro k
    rw [foldSamples_kind]
    have h0 : kindCorrectStat (initState corpus.length).stats k = 0 := by
      cases k <;> rfl
    rw [h0, Nat.zero_add]
  have hdiff : ∀ d, diffCorrectStat
      (foldSamples (initState corpus.length) (runResults env 0 corpus)).stats d =
      passCountDiff (runResults env 0 corpus) d := by
    intro d
    rw [foldSamples_diff]
    have h0 : diffCorrectStat (initState corpus.length).stats d = 0 := by
      cases d <;> rfl
    rw [h0, Nat.zero_add]
  have hfmt : (foldSamples (initState corpus.length) (runResults env 0 corpus)).stats.format_correct =
      formatCount (runResults env 0 corpus) := by
    rw [foldSamples_format]; simp [initState]
  have hedu : (foldSamples (initState corpus.length) (runResults env 0 corpus)).stats.educational_value_sum =
      eduSum (runResults env 0 corpus) := by
    rw [foldSamples_edu]; simp [initState]
  have htot : (foldSamples (initState corpus.length) (runResults env 0 corpus)).stats.total =
      corpus.length := by
    rw [foldSamples_total]; rfl
  have hperf : (foldSamples (initState corpus.length) (runResults env 0 corpus)).perf_vector =
      (runResults env 0 corpus).map (fun q => perfOf q.2) := by
    rw [foldSamples_perf]; simp [initState]
  have herr : (foldSamples (initState corpus.length) (runResults env 0 corpus)).error_samples =
      spec_low_score_samples (runResults env 0 corpus) := by
    rw [foldSamples_err]; simp [initState]
  have hstats : (foldSamples (initState corpus.length) (runResults env 0 corpus)).stats =
      specStats corpus (runResults env 0 corpus) :=
    statsExt _ _ (hkind .syntx) (hkind .runtime) (hkind .logical) (hkind .conceptual)
      (hdiff .beginner) (hdiff .intermediate) (hdiff .advanced) hfmt hedu htot
  have hed2 : List.foldl
      (fun acc kw =>
        if 0 < kindCount corpus kw.1 then
          acc + (kindCorrectStat (specStats corpus (runResults env 0 corpus)) kw.1 : ℚ) /
            (kindCount corpus kw.1 : ℚ) * kw.2
        else acc) 0 error_type_weights =
      spec_error_detection_score corpus (runResults env 0 corpus) := by
    simp only [error_type_weights, List.foldl_cons, List.foldl_nil]
    rw [ite_acc_add, ite_acc_add, ite_acc_add, ite_acc_add]
    simp only [spec_error_detection_score, specStats, kindCorrectStat]
    split_ifs <;> ring
  have hds2 : List.foldl
      (fun acc d =>
        if 0 < diffCount corpus d then
          acc + (diffCorrectStat (specStats corpus (runResults env 0 corpus)) d : ℚ) /
            (diffCount corpus d : ℚ) / 3
        else acc) 0 [Difficulty.beginner, Difficulty.intermediate, Difficulty.advanced] =
      spec_difficulty_score corpus (runResults env 0 corpus) := by
    simp only [List.foldl_cons, List.foldl_nil]
    rw [ite_acc_add, ite_acc_add, ite_acc_add]
    simp only [spec_difficulty_score, specStats, diffCorrectStat]
    split_ifs <;> ring
  have hproj1 : (specStats corpus (runResults env 0 corpus)).educational_value_sum =
      eduSum (runResults env 0 corpus) := rfl
  have hproj2 : (specStats corpus (runResults env 0 corpus)).format_correct =
      formatCount (runResults env 0 corpus) := rfl
  simp only [evaluate, if_neg h, hstats, hperf, herr]
  simp only [hed2, hds2, hproj1, hproj2]
  simp only [spec_overall_score, specEvidence]

/-! ### Lemmas about the stratified sampler -/

lemma pySample_length (k : Nat) (st : Nat) (pop : List TestCase)
    (h : k ≤ pop.length) : (pySample st k pop).1.length = k := by
  induction k generalizing st pop with
  | zero => rfl
  | succ k ih =>
    have hne : pop ≠ [] := by
      intro he
      rw [he] at h
      simp at h
    simp only [pySample, dif_neg hne]
    have hi : lcgNext st % pop.length < pop.length :=
      Nat.mod_lt _ (List.length_pos.mpr hne)
    have hlen : (pop.eraseIdx (lcgNext st % pop.length)).length = pop.length - 1 := by
      rw [List.length_eraseIdx]
      simp [hi]
    have : k ≤ (pop.eraseIdx (lcgNext st % pop.length)).length := by
      rw [hlen]; omega
    simp [ih _ _ this]

lemma pySample_subset (k : Nat) (st : Nat) (pop : List TestCase) :
    ∀ x ∈ (pySample st k pop).1, x ∈ pop := by
  induction k generalizing st pop with
  | zero => intro x hx; simp [pySample] at hx
  | succ k ih =>
    intro x hx
    by_cases hne : pop = []
    · rw [hne] at hx ⊢
      simp [pySample] at hx
    · simp only [pySample, dif_neg hne, List.mem_cons] at hx
      rcases hx with hx | hx
      · rw [hx]; exact List.get_mem _ _ _
      · exact (List.eraseIdx_sublist pop _).subset (ih _ _ x hx)

lemma getElem_not_mem_eraseIdx (pop : List TestCase) (i : Nat)
    (hi : i < pop.length) (h : pop.Nodup) : pop[i] ∉ pop.eraseIdx i := by
  intro hmem
  rw [List.mem_eraseIdx_iff_getElem] at hmem
  obtain ⟨j, hj, hne, hEq⟩ := hmem
  exact hne (h.getElem_inj_iff.mp hEq)

lemma pySample_nodup (k : Nat) (st : Nat) (pop : List TestCase)
    (h : pop.Nodup) : (pySample st k pop).1.Nodup := by
  induction k generalizing st pop with
  | zero => simp [pySample]
  | succ k ih =>
    by_cases hne : pop = []
    · simp [pySample, hne]
    · simp only [pySample, dif_neg hne, List.nodup_cons]
      have hi : lcgNext st % pop.length < pop.length :=
        Nat.mod_lt _ (List.length_pos.mpr hne)
      refine ⟨?_, ih _ _ ((List.eraseIdx_sublist pop _).nodup h)⟩
      intro hmem
      exact getElem_not_mem_eraseIdx pop _ hi h
        (pySample_subset _ _ _ _ hmem)

lemma drawGroups_mem (spg : Nat) (cases : List TestCase)
    (ks : List (ErrorType × Difficulty)) (st : Nat) :
    ∀ x ∈ (drawGroups spg cases st ks).1, x ∈ cases ∧ keyOf x ∈ ks := by
  induction ks generalizing st with
  | nil => intro x hx; simp [drawGroups] at hx
  | cons k ks ih =>
    intro x hx
    simp only [drawGroups, List.mem_append] at hx
    rcases hx with hx | hx
    · have hmem := pySample_subset _ _ _ _ hx
      rw [List.mem_filter] at hmem
      refine ⟨hmem.1, ?_⟩
      rw [decide_eq_true_iff] at hmem
      rw [hmem.2]
      exact List.mem_cons_self _ _
    · obtain ⟨h1, h2⟩ := ih _ x hx
      exact ⟨h1, List.mem_cons_of_mem _ h2⟩

lemma drawGroups_nodup (spg : Nat) (cases : List TestCase)
    (ks : List (ErrorType × Difficulty)) (st : Nat)
    (hc : cases.Nodup) (hk : ks.Nodup) : (drawGroups spg cases st ks).1.Nodup := by
  induction ks generalizing st with
  | nil => simp [drawGroups]
  | cons k ks ih =>
    rw [List.nodup_cons] at hk
    simp only [drawGroups]
    refine List.Nodup.append (pySample_nodup _ _ _ (hc.filter _)) (ih _ hk.2) ?_
    intro x hx1 hx2
    have h1 := pySample_subset _ _ _ _ hx1
    rw [List.mem_filter, decide_eq_true_iff] at h1
    have h2 := (drawGroups_mem _ _ _ _ x hx2).2
    rw [h1.2] at h2
    exact hk.1 h2

lemma length_filter_split (l : List TestCase) (p : TestCase → Bool) :
    (l.filter p).length + (l.filter (fun a => !(p a))).length = l.length := by
  induction l with
  | nil => rfl
  | cons a l ih =>
    by_cases h : p a <;> simp [List.filter_cons, h] <;> omega

lemma filter_mem_length (cases sampled : List TestCase)
    (hc : cases.Nodup) (hs : sampled.Nodup)
    (hsub : ∀ x ∈ sampled, x ∈ cases) :
    (cases.filter (fun c => decide (c ∈ sampled))).length = sampled.length := by
  have hperm : (cases.filter (fun c => decide (c ∈ sampled))).Perm sampled := by
    rw [List.perm_ext_iff_of_nodup (hc.filter _) hs]
    intro a
    simp only [List.mem_filter, decide_eq_true_iff]
    exact ⟨fun h => h.2, fun h => ⟨hsub a h, h⟩⟩
  exact hperm.length_eq

lemma remaining_length (cases sampled : List TestCase)
    (hc : cases.Nodup) (hs : sampled.Nodup)
    (hsub : ∀ x ∈ sampled, x ∈ cases) :
    (cases.filter (fun c => decide (c ∉ sampled))).length =
      cases.length - sampled.length := by
  have h1 := length_filter_split cases (fun c => decide (c ∈ sampled))
  have h2 := filter_mem_length cases sampled hc hs hsub
  have h3 : (cases.filter (fun c => decide (c ∉ sampled))) =
      (cases.filter (fun a => !(decide (a ∈ sampled)))) := by
    simp only [decide_not]
  rw [h3]
  omega

lemma nodup_subset_length_le (a b : List TestCase) (ha : a.Nodup)
    (hsub : ∀ x ∈ a, x ∈ b) : a.length ≤ b.length :=
  (List.subperm_of_subset ha hsub).length_le

lemma allKeys_nodup : allKeys.Nodup := by decide

lemma mem_allKeys (k : ErrorType × Difficulty) : k ∈ allKeys := by
  obtain ⟨a, b⟩ := k
  cases a <;> cases b <;> decide

lemma strataKeys_nodup (cases : List TestCase) : (strataKeys cases).Nodup :=
  allKeys_nodup.filter _

/-- The length law of the sampler on duplicate-free corpora. -/
lemma sample_balanced_cases_length (g0 : Nat) (cases : List TestCase)
    (n s : Nat) (h1 : cases ≠ []) (h2 : cases.Nodup) :
    ∃ l, sample_balanced_cases g0 cases n s = some l ∧
      l.length = min n cases.length := by
  simp only [sample_balanced_cases, if_neg h1]
  refine ⟨_, rfl, ?_⟩
  have hsub : ∀ x ∈ (drawGroups (max 1 (n / (strataKeys cases).length)) cases s
      (strataKeys cases)).1, x ∈ cases :=
    fun x hx => (drawGroups_mem _ _ _ _ x hx).1
  have hnod : (drawGroups (max 1 (n / (strataKeys cases).length)) cases s
      (strataKeys cases)).1.Nodup :=
    drawGroups_nodup _ _ _ _ h2 (strataKeys_nodup cases)
  have hle := nodup_subset_length_le _ _ hnod hsub
  have hrem := remaining_length cases _ h2 hnod hsub
  have hext := pySample_length
    (min (n - (drawGroups (max 1 (n / (strataKeys cases).length)) cases s
      (strataKeys cases)).1.length)
      (cases.filter (fun c => decide (c ∉ (drawGroups
        (max 1 (n / (strataKeys cases).length)) cases s
        (strataKeys cases)).1))).length)
    (drawGroups (max 1 (n / (strataKeys cases).length)) cases s
      (strataKeys cases)).2
    (cases.filter (fun c => decide (c ∉ (drawGroups
      (max 1 (n / (strataKeys cases).length)) cases s
      (strataKeys cases)).1)))
    (Nat.min_le_right _ _)
  rw [List.length_take, List.length_append, hext, hrem]
  omega

/-! ### Bounds on the dimension scores -/

lemma weighted_term_bounds (w : ℚ) (hw : 0 ≤ w) (pass cnt : Nat)
    (hle : pass ≤ cnt) :
    0 ≤ (if 0 < cnt then w * ((pass : ℚ) / (cnt : ℚ)) else 0) ∧
      (if 0 < cnt then w * ((pass : ℚ) / (cnt : ℚ)) else 0) ≤ w := by
  split_ifs with hc
  · have hc' : (0 : ℚ) < (cnt : ℚ) := by exact_mod_cast hc
    have hfrac : (pass : ℚ) / (cnt : ℚ) ≤ 1 := by
      rw [div_le_one hc']
      exact_mod_cast hle
    have hfrac0 : 0 ≤ (pass : ℚ) / (cnt : ℚ) := by positivity
    constructor
    · positivity
    · calc w * ((pass : ℚ) / (cnt : ℚ)) ≤ w * 1 :=
          mul_le_mul_of_nonneg_left hfrac hw
        _ = w := mul_one w
  · exact ⟨le_refl 0, hw⟩

lemma third_term_bounds (pass cnt : Nat) (hle : pass ≤ cnt) :
    0 ≤ (if 0 < cnt then ((pass : ℚ) / (cnt : ℚ)) / 3 else 0) ∧
      (if 0 < cnt then ((pass : ℚ) / (cnt : ℚ)) / 3 else 0) ≤ 1/3 := by
  split_ifs with hc
  · have hc' : (0 : ℚ) < (cnt : ℚ) := by exact_mod_cast hc
    have hfrac : (pass : ℚ) / (cnt : ℚ) ≤ 1 := by
      rw [div_le_one hc']
      exact_mod_cast hle
    have hfrac0 : 0 ≤ (pass : ℚ) / (cnt : ℚ) := by positivity
    constructor
    · positivity
    · linarith
  · constructor <;> norm_num

lemma spec_error_detection_bounds (corpus : List TestCase)
    (env : Nat → SampleEnv) :
    0 ≤ spec_error_detection_score corpus (runResults env 0 corpus) ∧
      spec_error_detection_score corpus (runResults env 0 corpus) ≤ 1 := by
  have h1 := weighted_term_bounds (1/4) (by norm_num)
    (passCountKind (runResults env 0 corpus) .syntx) (kindCount corpus .syntx)
    (passCountKind_le env 0 corpus .syntx)
  have h2 := weighted_term_bounds (7/20) (by norm_num)
    (passCountKind (runResults env 0 corpus) .runtime) (kindCount corpus .runtime)
    (passCountKind_le env 0 corpus .runtime)
  have h3 := weighted_term_bounds (1/4) (by norm_num)
    (passCountKind (runResults env 0 corpus) .logical) (kindCount corpus .logical)
    (passCountKind_le env 0 corpus .logical)
  have h4 := weighted_term_bounds (3/20) (by norm_num)
    (passCountKind (runResults env 0 corpus) .conceptual) (kindCount corpus .conceptual)
    (passCountKind_le env 0 corpus .conceptual)
  rw [spec_error_detection_score]
  constructor <;> linarith [h1.1, h1.2, h2.1, h2.2, h3.1, h3.2, h4.1, h4.2]

lemma spec_difficulty_bounds (corpus : List TestCase)
    (env : Nat → SampleEnv) :
    0 ≤ spec_difficulty_score corpus (runResults env 0 corpus) ∧
      spec_difficulty_score corpus (runResults env 0 corpus) ≤ 1 := by
  have h1 := third_term_bounds
    (passCountDiff (runResults env 0 corpus) .beginner) (diffCount corpus .beginner)
    (passCountDiff_le env 0 corpus .beginner)
  have h2 := third_term_bounds
    (passCountDiff (runResults env 0 corpus) .intermediate) (diffCount corpus .intermediate)
    (passCountDiff_le env 0 corpus .intermediate)
  have h3 := third_term_bounds
    (passCountDiff (runResults env 0 corpus) .advanced) (diffCount corpus .advanced)
    (passCountDiff_le env 0 corpus .advanced)
  rw [spec_difficulty_score]
  constructor <;> linarith [h1.1, h1.2, h2.1, h2.2, h3.1, h3.2]

lemma eduOf_sampleOutcome_bounds (e : SampleEnv)
    (hb : grader_metrics_bounded e.grader) :
    0 ≤ eduOf (sampleOutcome e) ∧ eduOf (sampleOutcome e) ≤ 1 := by
  rw [sampleOutcome]
  cases responder_result e.attempts with
  | none => simp [eduOf]
  | some resp =>
    simp only [eduOf, evaluate_single_response]
    exact ⟨hb.2.2.1, hb.2.2.2⟩

lemma eduSum_bounds (env : Nat → SampleEnv)
    (hb : ∀ i, grader_metrics_bounded (env i).grader) (j : Nat)
    (l : List TestCase) :
    0 ≤ eduSum (runResults env j l) ∧
      eduSum (runResults env j l) ≤ (l.length : ℚ) := by
  induction l generalizing j with
  | nil => simp [eduSum, runResults]
  | cons tc rest ih =>
    have hr := ih (j + 1)
    have h1 := eduOf_sampleOutcome_bounds (env j) (hb j)
    simp only [runResults, eduSum, List.map_cons, List.sum_cons, List.length_cons]
    rw [eduSum] at hr
    push_cast
    constructor <;> linarith [h1.1, h1.2, hr.1, hr.2]

lemma formatCount_le (env : Nat → SampleEnv) (j : Nat) (l : List TestCase) :
    formatCount (runResults env j l) ≤ l.length := by
  rw [formatCount]
  calc (runResults env j l).countP (fun p => fmtOf p.2) ≤
      (runResults env j l).length := List.countP_le_length _
    _ = l.length := runResults_length env j l

/-! ### The claims -/

attribute [local semireducible] Rat.add Rat.mul Rat.inv Rat.sub

/-- C1 (counterexample): on the empty corpus, `evaluate` does not return an
aggregate report at all — the claim that it returns one with all scores and
counts zero is false: the run ends in a `ZeroDivisionError`. -/
theorem C1_empty_corpus_counterexample :
    (evaluate "p" [] envHigh).toOption = none := rfl

/-- C1 (amended): for the empty corpus, `evaluate` raises `ZeroDivisionError`
while computing `educational_score = stats['educational_value_sum'] / n`
with `n = 0` (line 196); no aggregate report is produced. -/
theorem C1_empty_corpus_raises (p : String) (env : Nat → SampleEnv) :
    evaluate p [] env = .error "ZeroDivisionError: division by zero" := rfl

/-- C2 (counterexample): a one-case corpus whose responder exhausts all
retries yields perf-vector entry `0`, but no per-sample record at all — in
particular none with a non-empty failure reason: both `fp_samples` and the
report's `error_samples` are empty.  The "no response" message is only
printed. -/
theorem C2_no_failure_record_counterexample :
    (evaluate "p" [tc_syn] envFail).toOption.map
      (fun r => (r.2.fp_samples, r.2.metrics.error_samples, r.2.perf_vector)) =
      some ([], [], [0]) := by decide

/-- C2 (amended): when the responder exhausts its retries on test case `i`,
grading is skipped and nothing is raised: `evaluate` still returns a result,
the performance-vector entry for `i` is `0`, and the low-score collection
contains only records of graded samples — the failed sample contributes no
record (and hence no failure reason) anywhere. -/
theorem C2_no_response_skips_sample (p : String) (corpus : List TestCase)
    (env : Nat → SampleEnv) (i : Nat) (h : corpus ≠ []) (hi : i < corpus.length)
    (hfail : responder_result ((env i).attempts) = none) :
    ∃ r, evaluate p corpus env = .ok r ∧
      r.2.perf_vector[i]? = some 0 ∧
      r.2.fp_samples = spec_low_score_samples (runResults env 0 corpus) ∧
      (∀ e ∈ r.2.fp_samples, ∃ q ∈ runResults env 0 corpus, ∃ resp jr,
        q.2 = SampleOutcome.judged resp jr ∧ e = mkErrorSample q.1 resp jr) := by
  refine ⟨_, evaluate_closed_form p corpus env h, ?_, rfl, ?_⟩
  · show ((runResults env 0 corpus).map (fun q => perfOf q.2))[i]? = some 0
    rw [List.getElem?_map, runResults_getElem? env corpus 0 i,
      List.getElem?_eq_getElem hi]
    simp only [Option.map_some', Nat.zero_add]
    rw [sampleOutcome, hfail]
    rfl
  · intro e he
    have he' : e ∈ spec_low_score_samples (runResults env 0 corpus) := he
    rw [spec_low_score_samples, List.mem_filterMap] at he'
    obtain ⟨q, hq, hf⟩ := he'
    refine ⟨q, hq, ?_⟩
    cases ho : q.2 with
    | noResponse =>
      rw [ho] at hf
      simp [lowRecOf] at hf
    | judged resp jr =>
      rw [ho] at hf
      simp only [lowRecOf] at hf
      by_cases hlt : jr.score < (17 : ℚ)/20
      · rw [if_pos hlt] at hf
        exact ⟨resp, jr, rfl, (Option.some.inj hf).symm⟩
      · rw [if_neg hlt] at hf
        cases hf

/-- Witness for C2's amended theorem at a concrete failing run. -/
theorem C2_no_response_skips_sample_witness :
    (([tc_syn] : List TestCase) ≠ []) ∧ 0 < ([tc_syn] : List TestCase).length ∧
      responder_result ((envFail 0).attempts) = none ∧
      (∃ r, evaluate "p" [tc_syn] envFail = .ok r ∧
        r.2.perf_vector[0]? = some 0 ∧
        r.2.fp_samples = spec_low_score_samples (runResults envFail 0 [tc_syn]) ∧
        (∀ e ∈ r.2.fp_samples, ∃ q ∈ runResults envFail 0 [tc_syn], ∃ resp jr,
          q.2 = SampleOutcome.judged resp jr ∧ e = mkErrorSample q.1 resp jr)) :=
  ⟨by decide, by decide, by decide,
    C2_no_response_skips_sample "p" [tc_syn] envFail 0 (by decide) (by decide)
      (by decide)⟩

/-- C3 (counterexample): the grader is free to return out-of-range
sub-scores, and nothing clamps them: with every sub-score `5`, the
educational dimension becomes `5` and the overall score `49/30`, both
greater than `1`.  So the claim that every run has all scores in `[0,1]`
is false. -/
theorem C3_out_of_range_counterexample :
    (evaluate "p" [tc_syn] envBig).toOption.map
        (fun r => (r.2.metrics.educational_value, r.2.metrics.overall_score, r.1)) =
      some (5, 49/30, 49/30) ∧ ¬ ((5 : ℚ) ≤ 1) ∧ ¬ ((49/30 : ℚ) ≤ 1) :=
  ⟨by decide, by norm_num, by norm_num⟩

/-- C3 (amended): on a nonempty corpus, provided every grader behaviour
yields extracted sub-scores within `[0,1]`, the returned overall score and
all four dimension scores lie in `[0,1]` (and the returned scalar equals
the report's overall score). -/
theorem C3_scores_bounded (p : String) (corpus : List TestCase)
    (env : Nat → SampleEnv) (h : corpus ≠ [])
    (hb : ∀ i, grader_metrics_bounded (env i).grader) :
    ∃ r, evaluate p corpus env = .ok r ∧
      r.1 = r.2.metrics.overall_score ∧
      (0 ≤ r.2.metrics.overall_score ∧ r.2.metrics.overall_score ≤ 1) ∧
      (0 ≤ r.2.metrics.error_detection ∧ r.2.metrics.error_detection ≤ 1) ∧
      (0 ≤ r.2.metrics.educational_value ∧ r.2.metrics.educational_value ≤ 1) ∧
      (0 ≤ r.2.metrics.format_compliance ∧ r.2.metrics.format_compliance ≤ 1) ∧
      (0 ≤ r.2.metrics.difficulty_adaptation ∧ r.2.metrics.difficulty_adaptation ≤ 1) := by
  obtain ⟨hed0, hed1⟩ := spec_error_detection_bounds corpus env
  obtain ⟨hd0, hd1⟩ := spec_difficulty_bounds corpus env
  obtain ⟨he0, he1⟩ := eduSum_bounds env hb 0 corpus
  have hf1 := formatCount_le env 0 corpus
  have hn : (0 : ℚ) < (corpus.length : ℚ) := by
    have hl : 0 < corpus.length := List.length_pos.mpr h
    exact_mod_cast hl
  have hedu0 : 0 ≤ eduSum (runResults env 0 corpus) / (corpus.length : ℚ) :=
    div_nonneg he0 hn.le
  have hedu1 : eduSum (runResults env 0 corpus) / (corpus.length : ℚ) ≤ 1 := by
    rw [div_le_one hn]
    exact he1
  have hfc0 : 0 ≤ (formatCount (runResults env 0 corpus) : ℚ) / (corpus.length : ℚ) := by
    positivity
  have hfc1 : (formatCount (runResults env 0 corpus) : ℚ) / (corpus.length : ℚ) ≤ 1 := by
    rw [div_le_one hn]
    exact_mod_cast hf1
  have hov0 : 0 ≤ spec_overall_score corpus (runResults env 0 corpus) := by
    rw [spec_overall_score]
    linarith
  have hov1 : spec_overall_score corpus (runResults env 0 corpus) ≤ 1 := by
    rw [spec_overall_score]
    linarith
  exact ⟨_, evaluate_closed_form p corpus env h, rfl, ⟨hov0, hov1⟩, ⟨hed0, hed1⟩,
    ⟨hedu0, hedu1⟩, ⟨hfc0, hfc1⟩, ⟨hd0, hd1⟩⟩

/-- Witness for C3's amended theorem at a concrete in-range run. -/
theorem C3_scores_bounded_witness :
    (([tc_syn] : List TestCase) ≠ []) ∧
      (∀ i, grader_metrics_bounded ((envHigh i).grader)) ∧
      (∃ r, evaluate "p" [tc_syn] envHigh = .ok r ∧
        r.1 = r.2.metrics.overall_score ∧
        (0 ≤ r.2.metrics.overall_score ∧ r.2.metrics.overall_score ≤ 1) ∧
        (0 ≤ r.2.metrics.error_detection ∧ r.2.metrics.error_detection ≤ 1) ∧
        (0 ≤ r.2.metrics.educational_value ∧ r.2.metrics.educational_value ≤ 1) ∧
        (0 ≤ r.2.metrics.format_compliance ∧ r.2.metrics.format_compliance ≤ 1) ∧
        (0 ≤ r.2.metrics.difficulty_adaptation ∧ r.2.metrics.difficulty_adaptation ≤ 1)) :=
  ⟨by decide,
    fun _ => (by decide : grader_metrics_bounded (GraderBehavior.ret jreply09)),
    C3_scores_bounded "p" [tc_syn] envHigh (by decide)
      (fun _ => (by decide : grader_metrics_bounded (GraderBehavior.ret jreply09)))⟩

/-- C4 (counterexample): on a corpus containing two equal cases the
claimed size law fails: with `[a, a, b]`, `n = 3`, the top-up filter
`c not in sampled` removes both copies of an already-sampled case, so only
2 cases are returned although `min(3, 3) = 3`. -/
theorem C4_duplicate_corpus_counterexample :
    (sample_balanced_cases 0 corpusDup 3 42).map List.length ≠
      some (min 3 corpusDup.length) := by decide

/-- C4 (amended): for every nonempty corpus of pairwise-distinct cases,
every size bound and every seed, the sampler returns exactly
`min n |C|` cases.  (On the empty corpus the function instead raises
`ZeroDivisionError`, cf. `sample_balanced_cases`.) -/
theorem C4_sample_size (g0 : Nat) (cases : List TestCase) (n s : Nat)
    (h1 : cases ≠ []) (h2 : cases.Nodup) (_h3 : 1 ≤ n) :
    ∃ l, sample_balanced_cases g0 cases n s = some l ∧
      l.length = min n cases.length :=
  sample_balanced_cases_length g0 cases n s h1 h2

/-- Witness for C4's amended theorem at a concrete distinct corpus. -/
theorem C4_sample_size_witness :
    (([tc_syn, tc_run] : List TestCase) ≠ []) ∧
      List.Nodup [tc_syn, tc_run] ∧ 1 ≤ 1 ∧
      (∃ l, sample_balanced_cases 0 [tc_syn, tc_run] 1 42 = some l ∧
        l.length = min 1 ([tc_syn, tc_run] : List TestCase).length) :=
  ⟨by decide, by decide, by decide,
    C4_sample_size 0 [tc_syn, tc_run] 1 42 (by decide) (by decide) (by decide)⟩

/-- C5: the low-score collection is exactly the graded samples with
composite score `< 0.85`, in evaluation order (not sorted by score), each
record carrying input, response, expected outcome, kind, difficulty, score
and failure reason; the copy exposed in the report is its first 20
entries, hence capped at 20.  (A sample whose responder exhausted retries
is never graded, has no composite score, and produces no record; that
behaviour is settled under C2.) -/
theorem C5_low_score_collection (p : String) (corpus : List TestCase)
    (env : Nat → SampleEnv) (h : corpus ≠ []) :
    ∃ r, evaluate p corpus env = .ok r ∧
      r.2.metrics.error_samples =
        (spec_low_score_samples (runResults env 0 corpus)).take 20 ∧
      r.2.fp_samples = spec_low_score_samples (runResults env 0 corpus) ∧
      r.2.metrics.error_samples.length ≤ 20 :=
  ⟨_, evaluate_closed_form p corpus env h, rfl, rfl, by
    show ((spec_low_score_samples (runResults env 0 corpus)).take 20).length ≤ 20
    rw [List.length_take]
    exact Nat.min_le_left _ _⟩

/-- Witness for C5 at a run producing one low-score record. -/
theorem C5_low_score_collection_witness :
    (([tc_syn] : List TestCase) ≠ []) ∧
      (∃ r, evaluate "p" [tc_syn] envLow = .ok r ∧
        r.2.metrics.error_samples =
          (spec_low_score_samples (runResults envLow 0 [tc_syn])).take 20 ∧
        r.2.fp_samples = spec_low_score_samples (runResults envLow 0 [tc_syn]) ∧
        r.2.metrics.error_samples.length ≤ 20) :=
  ⟨by decide, C5_low_score_collection "p" [tc_syn] envLow (by decide)⟩

/-- C6: the sampler is deterministic — its output does not depend on the
ambient random-generator state (which `random.seed(seed)` resets), so two
invocations with equal `(corpus, n, seed)` agree; and the strata are
iterated in the fixed lexicographic order on the (kind, difficulty) key:
the key sequence is strictly sorted and consists exactly of the keys
present in the corpus. -/
theorem C6_sampler_deterministic :
    (∀ (g g' : Nat) (cases : List TestCase) (n s : Nat),
      sample_balanced_cases g cases n s = sample_balanced_cases g' cases n s) ∧
    (∀ cases : List TestCase, (strataKeys cases).Pairwise keyLt) ∧
    (∀ (cases : List TestCase) (k : ErrorType × Difficulty),
      k ∈ strataKeys cases ↔ ∃ c ∈ cases, keyOf c = k) := by
  refine ⟨fun _ _ _ _ _ => rfl, fun cases => List.Pairwise.filter _ (by decide), ?_⟩
  intro cases k
  simp only [strataKeys, List.mem_filter, List.any_eq_true, decide_eq_true_iff]
  constructor
  · rintro ⟨-, c, hc, he⟩
    exact ⟨c, hc, he⟩
  · rintro ⟨c, hc, he⟩
    exact ⟨mem_allKeys k, c, hc, he⟩

/-- C7: the error-detection dimension is the weighted sum, over the kinds
with at least one sample, of `weight × pass-fraction` with weights
syntax 0.25, runtime 0.35, logical 0.25, conceptual 0.15 and no
renormalisation for absent kinds; and in the four-kind scenario with
composite scores `0.9, 0.3, 0.95, 0.6` it equals
`0.25·1 + 0.35·0 + 0.25·1 + 0.15·0 = 0.50`. -/
theorem C7_error_detection :
    (∀ (p : String) (corpus : List TestCase) (env : Nat → SampleEnv),
      corpus ≠ [] →
      ∃ r, evaluate p corpus env = .ok r ∧
        r.2.metrics.error_detection =
          spec_error_detection_score corpus (runResults env 0 corpus)) ∧
    (evaluate "p" corpus4 envC7).toOption.map
      (fun r => r.2.metrics.error_detection) = some (1/2) := by
  constructor
  · intro p corpus env h
    exact ⟨_, evaluate_closed_form p corpus env h, rfl⟩
  · decide

/-- Witness for C7 at the four-kind scenario. -/
theorem C7_error_detection_witness :
    corpus4 ≠ [] ∧
      (∃ r, evaluate "p" corpus4 envC7 = .ok r ∧
        r.2.metrics.error_detection =
          spec_error_detection_score corpus4 (runResults envC7 0 corpus4)) :=
  ⟨by decide, C7_error_detection.1 "p" corpus4 envC7 (by decide)⟩

/-- C8: a grader reply whose first structured span decodes to an object
with `accuracy = 0.9`, `guidance = 0.8`, `clarity = 0.7` yields composite
score `0.5·0.9 + 0.3·0.8 + 0.2·0.7 = 0.83`. -/
theorem C8_judge_composite (resp s j : String) (m : List (String × JsonVal))
    (h1 : firstBraceSpan s = some j) (h2 : jsonLoads j = some m)
    (ha : dictGet m "accuracy" = some (.num (9/10)))
    (hg : dictGet m "guidance" = some (.num (4/5)))
    (hc : dictGet m "clarity" = some (.num (7/10))) :
    (evaluate_single_response resp (.ret s)).score = 83/100 := by
  have hs : ¬ (s = "") := by
    intro he
    rw [he] at h1
    simp [firstBraceSpan, firstBraceSpanAux] at h1
  simp only [evaluate_single_response, grade_metrics, if_neg hs, h1, h2, ha, hg, hc,
    Option.getD_some]
  norm_num

/-- Witness for C8 at a concrete grader reply with surrounding prose. -/
theorem C8_judge_composite_witness :
    firstBraceSpan jreplyRound = some spanRound ∧
      jsonLoads spanRound = some dictRound ∧
      dictGet dictRound "accuracy" = some (.num (9/10)) ∧
      dictGet dictRound "guidance" = some (.num (4/5)) ∧
      dictGet dictRound "clarity" = some (.num (7/10)) ∧
      (evaluate_single_response "resp" (.ret jreplyRound)).score = 83/100 :=
  ⟨by decide, by decide, by decide, by decide, by decide,
    C8_judge_composite "resp" jreplyRound spanRound dictRound (by decide)
      (by decide) (by decide) (by decide) (by decide)⟩

/-- C9: the difficulty dimension is the sum, over the tiers with at least
one sample, of `pass-fraction / 3`, the divisor 3 applied unconditionally
even when fewer than three tiers are present (absent tiers contribute 0,
nothing is renormalised); in particular a single-tier corpus whose only
sample passes scores `1/3`, not `1`. -/
theorem C9_difficulty_formula :
    (∀ (p : String) (corpus : List TestCase) (env : Nat → SampleEnv),
      corpus ≠ [] →
      ∃ r, evaluate p corpus env = .ok r ∧
        r.2.metrics.difficulty_adaptation =
          spec_difficulty_score corpus (runResults env 0 corpus)) ∧
    (evaluate "p" [tc_syn] envHigh).toOption.map
      (fun r => r.2.metrics.difficulty_adaptation) = some (1/3) := by
  constructor
  · intro p corpus env h
    exact ⟨_, evaluate_closed_form p corpus env h, rfl⟩
  · decide

/-- Witness for C9 at the single-tier scenario. -/
theorem C9_difficulty_formula_witness :
    (([tc_syn] : List TestCase) ≠ []) ∧
      (∃ r, evaluate "p" [tc_syn] envHigh = .ok r ∧
        r.2.metrics.difficulty_adaptation =
          spec_difficulty_score [tc_syn] (runResults envHigh 0 [tc_syn])) :=
  ⟨by decide, C9_difficulty_formula.1 "p" [tc_syn] envHigh (by decide)⟩

/-- C10: the format flag is true exactly when the responder's text contains
one of the code markers (fenced block, `def `, `return`) and one of the
explanation markers (错误, Error, 问题, 修正); and the flag the judge
stores depends only on the responder's text, not on the grader's
behaviour. -/
theorem C10_format_check :
    ∀ response : String,
      (check_format response = true ↔
        ("```".toList <:+: response.toList ∨ "def ".toList <:+: response.toList ∨
          "return".toList <:+: response.toList) ∧
        ("错误".toList <:+: response.toList ∨ "Error".toList <:+: response.toList ∨
          "问题".toList <:+: response.toList ∨ "修正".toList <:+: response.toList)) ∧
      ∀ g : GraderBehavior,
        (evaluate_single_response response g).format_correct = check_format response := by
  intro response
  refine ⟨?_, fun g => rfl⟩
  simp only [check_format, containsSub, Bool.and_eq_true, Bool.or_eq_true,
    decide_eq_true_iff]
  tauto

end TeachingEval
